import Mathlib

/-!
Verification development for a set of small operator scripts against a
cloud provider's APIs. Three programs are embedded:

* `s3_threaded_delete.py` — a bulk-object-deletion pipeline: `handler`
  makes one `list_objects_v2` call, starts eight `DeleteWorker` threads
  sharing a `Queue`, enqueues each listed key, and calls `queue.join()`.
  Each worker loops `get()` / `delete_object` inside `try/finally` with
  `task_done()` in the `finally` block and no `except` clause.
* `sg-audit.py` — orphaned-security-group detection and its `--delete`
  entry point `remove_orphans`.
* `ebs-backup-worker.py` — snapshot retention cleanup `cleanup_snapshots`.

The threaded pipeline is embedded as an interleaving state machine: one
`Action` per atomic event (producer enqueue, worker dequeue, worker
finishing an item, `queue.join()` returning), with `applyAction` the
executable transition function and `Reachable` the set of states an
interleaved execution can reach.
-/

namespace S3Del

/-- A task on the queue: the `(bucket, key)` pair from
`queue.put((event['Bucket'], obj['Key']))`. -/
abbrev Task := String × String

/-- Status of one `DeleteWorker` thread. `processing t` means the thread
has returned from `queue.get()` with task `t` but has not yet executed the
`finally: self.queue.task_done()`. `dead` means an exception escaped the
`while True:` loop and terminated the thread (the loop body has a
`try/finally` but no `except`, so an error raised by
`self.client.delete_object` propagates out of `run`). -/
inductive WStatus
  | idle
  | processing (t : Task)
  | dead
deriving DecidableEq, Repr

/-- The task held by a worker that is currently processing one. -/
def wTask : WStatus → Option Task
  | .processing t => some t
  | _ => none

/-- All tasks currently being processed by some worker. -/
def procTasks (ws : List WStatus) : List Task :=
  ws.filterMap wTask

/-- Interleaved state of `handler`'s main thread plus the worker threads.

* `toEnqueue` — keys the main thread's `for obj in response['Contents']`
  loop has not yet `put` on the queue;
* `pending`   — current contents of the `Queue` (FIFO);
* `unfinished` — the queue's `unfinished_tasks` counter: incremented by
  `put`, decremented by `task_done`; `queue.join()` returns when it is 0;
* `workers`   — status of each of the started `DeleteWorker` threads;
* `puts`      — trace of tasks enqueued so far, in order;
* `acks`      — trace of `task_done()` calls so far, each paired with
  whether the delete succeeded (`true`) or raised (`false`);
* `joined`    — whether `queue.join()` has returned in the main thread. -/
structure PipeState where
  toEnqueue : List Task
  pending : List Task
  unfinished : Nat
  workers : List WStatus
  puts : List Task
  acks : List (Task × Bool)
  joined : Bool
deriving DecidableEq, Repr

/-- One atomic event of the interleaved execution. -/
inductive Action
  | put
  | claim (w : Nat)
  | finish (w : Nat)
  | join
deriving DecidableEq, Repr

/-- Transition function of the pipeline, one case per atomic event.
`fails t` tells whether `delete_object` raises for task `t`.

* `put` — the main thread enqueues the next key (`queue.put` increments
  `unfinished_tasks`); enabled only while keys remain, which also encodes
  that the main thread reaches `queue.join()` only after the loop ends.
* `claim w` — idle worker `w` returns from `queue.get()` with the head of
  the queue; blocked when the queue is empty or `w` is dead/processing.
* `finish w` — worker `w` completes its item: `delete_object` either
  succeeds or raises; either way the `finally` block runs `task_done()`
  exactly once; on success the worker loops back to `get()`, on an
  exception the worker thread terminates (`dead`).
* `join` — `queue.join()` returns in the main thread; enabled exactly
  when the enqueue loop is over and `unfinished_tasks == 0`. -/
def applyAction (fails : Task → Bool) (s : PipeState) : Action → Option PipeState
  | .put =>
    match s.toEnqueue with
    | [] => none
    | t :: rest =>
      some { s with toEnqueue := rest, pending := s.pending ++ [t],
                    unfinished := s.unfinished + 1, puts := s.puts ++ [t] }
  | .claim w =>
    match s.workers.get? w, s.pending with
    | some .idle, t :: rest =>
      some { s with pending := rest, workers := s.workers.set w (.processing t) }
    | _, _ => none
  | .finish w =>
    match s.workers.get? w with
    | some (.processing t) =>
      some { s with unfinished := s.unfinished - 1,
                    acks := s.acks ++ [(t, !fails t)],
                    workers := s.workers.set w (if fails t then .dead else .idle) }
    | _ => none
  | .join =>
    if s.toEnqueue = [] ∧ s.unfinished = 0 ∧ s.joined = false then
      some { s with joined := true }
    else none

/-- One interleaving step: some thread performs an enabled atomic event. -/
def Step (fails : Task → Bool) (s s' : PipeState) : Prop :=
  ∃ a, applyAction fails s a = some s'

/-- State of the pipeline right after `handler` has started the workers
and before the enqueue loop: `W` idle workers bound to an empty queue,
with `tasks` the keys the listing call returned. -/
def initState (tasks : List Task) (W : Nat) : PipeState :=
  { toEnqueue := tasks, pending := [], unfinished := 0,
    workers := List.replicate W .idle, puts := [], acks := [], joined := false }

/-- States an interleaved execution of the pipeline can reach from the
start of the enqueue loop. -/
def Reachable (fails : Task → Bool) (tasks : List Task) (W : Nat) (s : PipeState) : Prop :=
  Relation.ReflTransGen (Step fails) (initState tasks W) s

/-- Execute a concrete schedule of atomic events; `none` if some event in
the list is not enabled when its turn comes. Used to exhibit particular
interleavings. -/
def runActs (fails : Task → Bool) : List Action → PipeState → Option PipeState
  | [], s => some s
  | a :: acts, s =>
    match applyAction fails s a with
    | none => none
    | some s' => runActs fails acts s'

/-- The number of tasks enqueued during the run (trace-derived). -/
def submittedCount (s : PipeState) : Nat := s.puts.length

/-- The number of `task_done` acknowledgments whose delete succeeded. -/
def succeededCount (s : PipeState) : Nat := s.acks.countP (fun a => a.2)

/-- The number of `task_done` acknowledgments whose delete raised. -/
def failedCount (s : PipeState) : Nat := s.acks.countP (fun a => !a.2)

/-- The listing service backing `client.list_objects_v2` for the bucket
and key filter the handler queries: `pages` is the paginated point-in-time
listing, one entry per page, where a page is either its keys or the error
the call raises when that page is requested. -/
structure ListingService where
  pages : List (Except String (List String))

/-- `client.list_objects_v2(...)`: without a `ContinuationToken` the call
returns the first page; with token `i` it returns page `i`. The result
carries the keys plus the `NextContinuationToken` (`none` on the last
page). A page whose fetch fails raises, modelled as `Except.error`. -/
def list_objects_v2 (svc : ListingService) (token : Option Nat) :
    Except String (List String × Option Nat) :=
  let i := token.getD 0
  match svc.pages.get? i with
  | none => .ok ([], none)
  | some (.error e) => .error e
  | some (.ok ks) => .ok (ks, if i + 1 < svc.pages.length then some (i + 1) else none)

/-- The handler's input event. The Python event is a JSON dict; the code
reads only `event['Bucket']` and `event['Prefix']` (here `pfx`). A caller
may also include a pool-size field (`poolSize`); the code never reads it. -/
structure S3Event where
  Bucket : String
  pfx : String
  poolSize : Option Nat
deriving DecidableEq, Repr

/-- The keys the handler iterates over: `handler` makes exactly one
`list_objects_v2` call with no `ContinuationToken` and loops over
`response['Contents']`; it never requests any further page. -/
def handlerEnumerate (svc : ListingService) : Except String (List String) :=
  match list_objects_v2 svc none with
  | .error e => .error e
  | .ok (ks, _) => .ok ks

/-- Tasks built by the enqueue loop: `queue.put((event['Bucket'], obj['Key']))`. -/
def tasksFor (bucket : String) (ks : List String) : List Task :=
  ks.map fun k => (bucket, k)

/-- The pipeline state right after `handler` has created the queue and
started its workers: `for x in range(8)` starts exactly eight
`DeleteWorker` threads whatever the event contains. -/
def handlerInitState (ev : S3Event) (ks : List String) : PipeState :=
  initState (tasksFor ev.Bucket ks) 8

/-- The aggregate result record described by the external interface:
counts plus the per-item failure list. Declared so the handler's actual
return value can be compared against it. -/
structure PipelineResult where
  submitted : Nat
  succeeded : Nat
  failed : Nat
  failures : List (String × String)
deriving DecidableEq, Repr

/-- Return value of `handler(event, context)`. An exception from the
single `list_objects_v2` call propagates unhandled (there is no `try`
around it). Otherwise the function starts workers, enqueues, blocks on
`queue.join()`, logs `'Bulk delete complete'`, and ends without a
`return` statement — so it returns `None`, never a result record. -/
def handler (ev : S3Event) (svc : ListingService) : Except String (Option PipelineResult) :=
  match list_objects_v2 svc none with
  | .error e => .error e
  | .ok _ => .ok none

/-- Delete oracle for a run in which every `delete_object` call raises. -/
def failsAll : Task → Bool := fun _ => true

/-- Delete oracle for a run in which every `delete_object` call succeeds. -/
def failsNone : Task → Bool := fun _ => false

/-- A one-object listing used for concrete executions. -/
def tasks1 : List Task := [("bucket-a", "key-1")]

/-- Schedule: enqueue the object, worker 0 dequeues it and its
`delete_object` raises. -/
def acts1 : List Action := [.put, .claim 0, .finish 0]

/-- State after `acts1` under `failsAll`: worker 0's thread has been
terminated by the escaped exception while no shutdown was ever signalled
(the program has no shutdown signal at all), yet `task_done` ran once. -/
def S1 : PipeState :=
  { toEnqueue := [], pending := [], unfinished := 0,
    workers := .dead :: List.replicate 7 .idle,
    puts := tasks1, acks := [(("bucket-a", "key-1"), false)], joined := false }

/-- Nine objects to delete — one more than the eight workers. -/
def tasks9 : List Task :=
  tasksFor "bkt" ["k1", "k2", "k3", "k4", "k5", "k6", "k7", "k8", "k9"]

/-- Schedule: enqueue all nine objects, then each of the eight workers
dequeues one object and dies on its failing delete. -/
def acts9 : List Action :=
  List.replicate 9 .put ++ (List.range 8).flatMap fun w => [.claim w, .finish w]

/-- State after `acts9` under `failsAll`: all eight workers dead, the
ninth task still on the queue, `queue.join()` not returned. No event is
enabled here: the pipeline is deadlocked and `("bkt", "k9")` is never
claimed nor acknowledged. -/
def S2 : PipeState :=
  { toEnqueue := [], pending := [("bkt", "k9")], unfinished := 1,
    workers := List.replicate 8 .dead,
    puts := tasks9,
    acks := [(("bkt", "k1"), false), (("bkt", "k2"), false), (("bkt", "k3"), false),
             (("bkt", "k4"), false), (("bkt", "k5"), false), (("bkt", "k6"), false),
             (("bkt", "k7"), false), (("bkt", "k8"), false)],
    joined := false }

/-- Schedule for a fully successful one-object run ending in `queue.join()`. -/
def actsJ : List Action := [.put, .claim 0, .finish 0, .join]

/-- State after `actsJ` under `failsNone`: the run has completed. -/
def SJ : PipeState :=
  { toEnqueue := [], pending := [], unfinished := 0,
    workers := List.replicate 8 .idle,
    puts := tasks1, acks := [(("bucket-a", "key-1"), true)], joined := true }

/-- First page (10 keys) of the 25-key listing. -/
def keysPage1 : List String :=
  ["k01", "k02", "k03", "k04", "k05", "k06", "k07", "k08", "k09", "k10"]

/-- Second page (10 keys) of the 25-key listing. -/
def keysPage2 : List String :=
  ["k11", "k12", "k13", "k14", "k15", "k16", "k17", "k18", "k19", "k20"]

/-- Third page (5 keys) of the 25-key listing. -/
def keysPage3 : List String := ["k21", "k22", "k23", "k24", "k25"]

/-- A listing service paginating 25 distinct keys as pages of 10/10/5. -/
def svc25 : ListingService := ⟨[.ok keysPage1, .ok keysPage2, .ok keysPage3]⟩

/-- A listing service whose first page succeeds with 10 keys and whose
second page raises when (if ever) it is requested. -/
def svcFail2 : ListingService := ⟨[.ok keysPage1, .error "InternalError"]⟩

/-- An event naming bucket `b`. -/
def ev25 : S3Event := { Bucket := "b", pfx := "p", poolSize := none }

/-- An event whose caller asks for a pool of four workers. -/
def evPool4 : S3Event := { Bucket := "b", pfx := "p", poolSize := some 4 }

/-- Schedule for a fully successful run over the first page: enqueue the
ten keys, worker 0 processes all ten, then `queue.join()` returns. -/
def actsPage1 : List Action :=
  List.replicate 10 .put ++ (List.replicate 10 [Action.claim 0, Action.finish 0]).flatten ++ [.join]

/-- State after `actsPage1` under `failsNone` starting from the first
page of `svc25`: the completed run. -/
def SJ25 : PipeState :=
  { toEnqueue := [], pending := [], unfinished := 0,
    workers := List.replicate 8 .idle,
    puts := tasksFor "b" keysPage1,
    acks := (tasksFor "b" keysPage1).map fun t => (t, true),
    joined := true }

end S3Del

namespace SgAudit

/-- One remote API call made by `sg-audit.py`. Every call the script can
issue is listed; `deleteSecurityGroup` is included so the absence of any
deletion can be stated (the script never issues it). -/
inductive ApiCall
  | describeSecurityGroups (vpcId : String)
  | describeInstances
  | describeLoadBalancers
  | describeLoadBalancersV2
  | describeFileSystems
  | describeMountTargets (fsId : String)
  | describeMountTargetSecurityGroups (mtId : String)
  | describeDbInstances
  | describeCacheClusters
  | listFunctions
  | describeClusters
  | deleteSecurityGroup (groupId : String)
deriving DecidableEq, Repr

/-- A mount target of an EFS file system with its security-group ids. -/
structure MountTarget where
  mtId : String
  sgs : List String
deriving DecidableEq, Repr

/-- An EFS file system with its mount targets. -/
structure FileSystem where
  fsId : String
  mounts : List MountTarget
deriving DecidableEq, Repr

/-- The slice of the AWS account `sg-audit.py` reads. For each service
the paginated listing is given page by page; within a page, each resource
is represented by the list of security-group ids it references, in the
script's iteration order (for EC2, the reservation/instance nesting is
flattened to one entry per instance). Lambda functions may lack a
`VpcConfig` key, modelled as `none`. -/
structure Env where
  sgGroups : String → List String
  ec2Pages : List (List (List String))
  elbPages : List (List (List String))
  elbv2Pages : List (List (List String))
  efsPages : List (List FileSystem)
  rdsPages : List (List (List String))
  cachePages : List (List (List String))
  lambdaPages : List (List (Option (List String)))
  redshiftPages : List (List (List String))

/-- `for sg in ...: if sg in sg_list: sg_list.pop(sg)` — remove every
referenced group id from the candidate list (ids are unique dict keys, so
`erase` matches `pop`). -/
def pruneSgs (used : List String) (sgl : List String) : List String :=
  used.foldl (fun l g => l.erase g) sgl

/-- One `while True:` pagination loop over a service listing, pruning the
group ids referenced by each resource of each page. -/
def prunePages (pages : List (List (List String))) (sgl : List String) : List String :=
  pages.foldl (fun l page => page.foldl (fun l res => pruneSgs res l) l) sgl

/-- The EFS loop: per file system, the mount targets' group ids. -/
def pruneEfs (pages : List (List FileSystem)) (sgl : List String) : List String :=
  pages.foldl
    (fun l page =>
      page.foldl (fun l fs => fs.mounts.foldl (fun l mt => pruneSgs mt.sgs l) l) l)
    sgl

/-- The Lambda loop: `if "VpcConfig" in func` guards the pruning. -/
def pruneLambda (pages : List (List (Option (List String)))) (sgl : List String) : List String :=
  pages.foldl
    (fun l page =>
      page.foldl
        (fun l cfg =>
          match cfg with
          | some sgs => pruneSgs sgs l
          | none => l)
        l)
    sgl

/-- The calls issued by one pagination loop: one listing call per page. -/
def pageCalls (c : ApiCall) (n : Nat) : List ApiCall := List.replicate n c

/-- The calls issued by the EFS loop: one `describe_file_systems` per
page, then per file system one `describe_mount_targets` and per mount
target one `describe_mount_target_security_groups`, in iteration order. -/
def efsCalls (pages : List (List FileSystem)) : List ApiCall :=
  pages.flatMap fun page =>
    ApiCall.describeFileSystems ::
      page.flatMap fun fs =>
        ApiCall.describeMountTargets fs.fsId ::
          fs.mounts.map fun mt => ApiCall.describeMountTargetSecurityGroups mt.mtId

/-- `get_security_group_list(vpc_id)`: one `describe_security_groups`
call; returns the group ids of the VPC (the dict keys, in order). -/
def get_security_group_list (env : Env) (vpcId : String) : List String × List ApiCall :=
  (env.sgGroups vpcId, [.describeSecurityGroups vpcId])

/-- `find_orphans(vpc_id)`: list all groups of the VPC, then prune the
ones referenced by EC2, ELB, ELBv2, EFS, RDS, ElastiCache, Lambda and
Redshift, in that source order. The second component is the trace of
remote API calls issued, in order. -/
def find_orphans (env : Env) (vpcId : String) : List String × List ApiCall :=
  let start := get_security_group_list env vpcId
  let sgl := prunePages env.ec2Pages start.1
  let sgl := prunePages env.elbPages sgl
  let sgl := prunePages env.elbv2Pages sgl
  let sgl := pruneEfs env.efsPages sgl
  let sgl := prunePages env.rdsPages sgl
  let sgl := prunePages env.cachePages sgl
  let sgl := pruneLambda env.lambdaPages sgl
  let sgl := prunePages env.redshiftPages sgl
  (sgl,
    start.2 ++ pageCalls .describeInstances env.ec2Pages.length
      ++ pageCalls .describeLoadBalancers env.elbPages.length
      ++ pageCalls .describeLoadBalancersV2 env.elbv2Pages.length
      ++ efsCalls env.efsPages
      ++ pageCalls .describeDbInstances env.rdsPages.length
      ++ pageCalls .describeCacheClusters env.cachePages.length
      ++ pageCalls .listFunctions env.lambdaPages.length
      ++ pageCalls .describeClusters env.redshiftPages.length)

/-- `remove_orphans(vpc_id)`: the body is exactly
`return find_orphans(vpc_id)` — no other statement. -/
def remove_orphans (env : Env) (vpcId : String) : List String × List ApiCall :=
  find_orphans env vpcId

/-- The parsed command-line arguments `main` dispatches on. -/
structure Args where
  vpcId : Option String
  delete : Bool
  display : Bool
deriving DecidableEq, Repr

/-- `main()`'s dispatch: without `--vpc-id` it raises; with
`args.delete is False` it prints `find_orphans`, otherwise it runs
`remove_orphans`. The value is the orphan list computed together with the
remote calls issued. -/
def mainAction (env : Env) (args : Args) : Except String (List String × List ApiCall) :=
  match args.vpcId with
  | none => .error "vpc-id required"
  | some v => .ok (if args.delete = false then find_orphans env v else remove_orphans env v)

/-- Whether a call trace contains only read-only listing calls. -/
def callsAreReadOnly (cs : List ApiCall) : Bool :=
  cs.all fun c =>
    match c with
    | .deleteSecurityGroup _ => false
    | _ => true

end SgAudit

namespace EbsBackup

/-- One snapshot as `cleanup_snapshots` sees it: its id and the value of
`(current_time - snapshot['StartTime']).days`. -/
structure Snapshot where
  snapshotId : String
  ageDays : Int
deriving DecidableEq, Repr

/-- The `output` dict of `cleanup_snapshots`: its only keys are
`removed` and `retained` — there is no field recording an error. -/
structure Counts where
  removed : Nat
  retained : Nat
deriving DecidableEq, Repr

/-- The slice of the EC2 API `cleanup_snapshots` touches, per volume id:
the paginated `describe_snapshots` listing, whether fetching page `i`
raises, and whether `delete_snapshot` raises for a given snapshot id. -/
structure Env where
  snapPages : String → List (List Snapshot)
  pageFails : String → Nat → Bool
  deleteFails : String → String → Bool

/-- The `for snapshot in response['Snapshots']` body over one page:
snapshots older than the retention period are deleted (`removed`
incremented after the delete call returns), the rest counted as
`retained`. A raising `delete_snapshot` aborts the page —
`output['removed']` is not incremented for the failing snapshot — and the
second component reports that an exception was raised. -/
def processPage (retentionDays : Int) (df : String → Bool) :
    List Snapshot → Counts → Counts × Bool
  | [], c => (c, false)
  | s :: rest, c =>
    if s.ageDays > retentionDays then
      if df s.snapshotId then (c, true)
      else processPage retentionDays df rest { c with removed := c.removed + 1 }
    else processPage retentionDays df rest { c with retained := c.retained + 1 }

/-- The `while True:` pagination loop inside the `try:` block. `i` is the
index of the page held in `response`; a `NextToken` is present exactly
when further pages exist. An exception — from a `delete_snapshot` call or
from the next `describe_snapshots` call — ends the loop, and the
`except: pass` makes the function fall through to `return output` with
the counts accumulated so far. -/
def cleanupLoop (pf : Nat → Bool) (df : String → Bool) (retentionDays : Int) :
    List (List Snapshot) → Nat → Counts → Counts
  | [], _, c => c
  | page :: rest, i, c =>
    let r := processPage retentionDays df page c
    if r.2 then r.1
    else
      match rest with
      | [] => r.1
      | _ => if pf (i + 1) then r.1 else cleanupLoop pf df retentionDays rest (i + 1) r.1

/-- `cleanup_snapshots(vol_id, retention_days)`. The initial
`describe_snapshots` call sits before the `try:` block, so a failure
there propagates out of the function (`Except.error`); every later
failure is swallowed and the accumulated counts are returned. -/
def cleanup_snapshots (env : Env) (volId : String) (retentionDays : Int) :
    Except String Counts :=
  if env.pageFails volId 0 then .error "describe_snapshots failed"
  else
    .ok (cleanupLoop (env.pageFails volId) (env.deleteFails volId) retentionDays
      (env.snapPages volId) 0 { removed := 0, retained := 0 })

/-- A concrete environment: volume `vol-1` has three snapshots past a
7-day retention and one recent snapshot, over two pages; the
`delete_snapshot` call for `snap-2` raises. -/
def envEx : Env :=
  { snapPages := fun v =>
      if v = "vol-1" then
        [[⟨"snap-1", 30⟩, ⟨"snap-2", 25⟩, ⟨"snap-3", 24⟩], [⟨"snap-4", 2⟩]]
      else []
    pageFails := fun _ _ => false
    deleteFails := fun _ sid => sid == "snap-2" }

end EbsBackup

namespace S3Del

/-- Invariant of the pipeline's interleaving semantics, tying the queue
counter and the traces together:

* the enqueue trace plus the not-yet-enqueued keys is the full listing;
* every enqueued task is, at any instant, in exactly one place —
  acknowledged, waiting on the queue, or held by a processing worker;
* `unfinished_tasks` counts the enqueued-but-not-acknowledged tasks;
* the worker list keeps its size (threads die in place, silently);
* once `queue.join()` has returned, enumeration was over and the counter
  was zero. -/
structure Inv (tasks : List Task) (W : Nat) (s : PipeState) : Prop where
  henum : s.puts ++ s.toEnqueue = tasks
  hms : (s.puts : Multiset Task) =
    ↑(s.acks.map Prod.fst) + ↑s.pending + ↑(procTasks s.workers)
  hunf : s.unfinished = s.pending.length + (procTasks s.workers).length
  hw : s.workers.length = W
  hj : s.joined = true → s.toEnqueue = [] ∧ s.unfinished = 0

end S3Del


namespace S3Del

theorem procTasks_cons_proc (t : Task) (ws : List WStatus) :
    procTasks (.processing t :: ws) = t :: procTasks ws := rfl

theorem procTasks_cons_idle (ws : List WStatus) :
    procTasks (.idle :: ws) = procTasks ws := rfl

theorem procTasks_cons_dead (ws : List WStatus) :
    procTasks (.dead :: ws) = procTasks ws := rfl

theorem procTasks_replicate_idle (W : Nat) :
    procTasks (List.replicate W .idle) = [] := by
  induction W with
  | zero => rfl
  | succ W ih => simpa [List.replicate_succ, procTasks_cons_idle] using ih

/-- Claiming a task moves it into the multiset of in-process tasks. -/
theorem procTasks_set_idle {ws : List WStatus} {w : Nat} (t : Task)
    (h : ws.get? w = some .idle) :
    List.Perm (procTasks (ws.set w (.processing t))) (t :: procTasks ws) := by
  induction ws generalizing w with
  | nil => cases h
  | cons x ws ih =>
    cases w with
    | zero =>
      injection h with h
      subst h
      simp [procTasks_cons_proc, procTasks_cons_idle]
    | succ w =>
      have hrec := ih (h : ws.get? w = some .idle)
      cases x with
      | processing u =>
        simp only [List.set, procTasks_cons_proc]
        exact (hrec.cons u).trans (List.Perm.swap t u _)
      | idle =>
        simpa [List.set, procTasks_cons_idle] using hrec
      | dead =>
        simpa [List.set, procTasks_cons_dead] using hrec

/-- Finishing a task removes it from the multiset of in-process tasks
(the worker becomes idle or its thread dies — either way it holds no
task). -/
theorem procTasks_set_unproc {ws : List WStatus} {w : Nat} {t : Task} {st : WStatus}
    (hst : wTask st = none) (h : ws.get? w = some (.processing t)) :
    List.Perm (procTasks ws) (t :: procTasks (ws.set w st)) := by
  induction ws generalizing w with
  | nil => cases h
  | cons x ws ih =>
    cases w with
    | zero =>
      injection h with h
      subst h
      have : procTasks (st :: ws) = procTasks ws := by
        cases st with
        | processing u => cases hst
        | idle => exact procTasks_cons_idle ws
        | dead => exact procTasks_cons_dead ws
      simp [procTasks_cons_proc, List.set, this]
    | succ w =>
      have hrec := ih (h : ws.get? w = some (.processing t))
      cases x with
      | processing u =>
        simp only [List.set, procTasks_cons_proc]
        exact (hrec.cons u).trans (List.Perm.swap t u _)
      | idle =>
        simpa [List.set, procTasks_cons_idle] using hrec
      | dead =>
        simpa [List.set, procTasks_cons_dead] using hrec

/-- A schedule that runs to completion visits only `Step`-related states. -/
theorem runActs_sound {fails : Task → Bool} {acts : List Action} {s s' : PipeState}
    (h : runActs fails acts s = some s') :
    Relation.ReflTransGen (Step fails) s s' := by
  induction acts generalizing s with
  | nil =>
    simp only [runActs] at h
    injection h with h
    exact h ▸ Relation.ReflTransGen.refl
  | cons a acts ih =>
    simp only [runActs] at h
    split at h
    · cases h
    · rename_i s1 hc
      exact Relation.ReflTransGen.head ⟨a, hc⟩ (ih h)

/-- The invariant holds in the initial state. -/
theorem inv_init (tasks : List Task) (W : Nat) : Inv tasks W (initState tasks W) := by
  constructor <;> simp [initState, procTasks_replicate_idle]

/-- The invariant is preserved by every atomic event. -/
theorem inv_step {fails : Task → Bool} {tasks : List Task} {W : Nat} {s s' : PipeState}
    (hs : Inv tasks W s) (h : Step fails s s') : Inv tasks W s' := by
  obtain ⟨a, ha⟩ := h
  cases a with
  | put =>
    simp only [applyAction] at ha
    split at ha
    · cases ha
    · rename_i t rest htE
      injection ha with ha
      subst ha
      refine ⟨?_, ?_, ?_, hs.hw, ?_⟩
      · simpa [List.append_assoc] using htE ▸ hs.henum
      · have hm := hs.hms
        simp only [← Multiset.coe_add] at hm ⊢
        rw [hm]
        abel
      · simp [hs.hunf]
        omega
      · intro hj
        rcases hs.hj hj with ⟨he, _⟩
        rw [htE] at he
        cases he
  | claim w =>
    simp only [applyAction] at ha
    split at ha
    · rename_i t rest hget hpend
      injection ha with ha
      subst ha
      have hperm := procTasks_set_idle t hget
      refine ⟨hs.henum, ?_, ?_, ?_, ?_⟩
      · rw [hs.hms, hpend, Multiset.coe_eq_coe.mpr hperm]
        simp only [← Multiset.cons_coe, ← Multiset.singleton_add]
        abel
      · have h1 := hperm.length_eq
        have h2 := hs.hunf
        rw [hpend] at h2
        simp only [List.length_cons] at h1 h2
        dsimp only
        omega
      · simpa [List.length_set] using hs.hw
      · exact hs.hj
    · cases ha
  | finish w =>
    simp only [applyAction] at ha
    split at ha
    · rename_i t hget
      injection ha with ha
      subst ha
      have hst : wTask (if fails t then WStatus.dead else WStatus.idle) = none := by
        cases fails t <;> rfl
      have hperm := procTasks_set_unproc hst hget
      have h1 := hperm.length_eq
      simp only [List.length_cons] at h1
      refine ⟨hs.henum, ?_, ?_, ?_, ?_⟩
      · rw [hs.hms, Multiset.coe_eq_coe.mpr hperm]
        simp only [List.map_append, List.map_cons, List.map_nil, ← Multiset.coe_add,
          ← Multiset.cons_coe, ← Multiset.singleton_add]
        abel
      · have h2 := hs.hunf
        dsimp only
        omega
      · simpa [List.length_set] using hs.hw
      · intro hj
        rcases hs.hj hj with ⟨he, hz⟩
        exact ⟨he, by dsimp only; omega⟩
    · cases ha
  | join =>
    simp only [applyAction] at ha
    split at ha
    · rename_i hc
      injection ha with ha
      subst ha
      exact ⟨hs.henum, hs.hms, hs.hunf, hs.hw, fun _ => ⟨hc.1, hc.2.1⟩⟩
    · cases ha

/-- Every reachable state satisfies the invariant. -/
theorem reachable_inv {fails : Task → Bool} {tasks : List Task} {W : Nat} {s : PipeState}
    (h : Reachable fails tasks W s) : Inv tasks W s := by
  induction h with
  | refl => exact inv_init tasks W
  | tail _ hstep ih => exact inv_step ih hstep

end S3Del

namespace S3Del

/-- Splitting the `task_done` acknowledgments by outcome counts each
acknowledgment exactly once. -/
theorem acks_count_split (l : List (Task × Bool)) :
    l.countP (fun a => a.2) + l.countP (fun a => !a.2) = l.length := by
  induction l with
  | nil => rfl
  | cons a l ih =>
    rcases a with ⟨t, b⟩
    cases b <;> simp [List.countP_cons] <;> omega

/-- In `S2` no thread can make progress: the queue still holds a task but
every worker thread has been terminated, and `unfinished_tasks` is 1 so
`queue.join()` never returns. -/
theorem S2_stuck (a : Action) : applyAction failsAll S2 a = none := by
  cases a with
  | put => rfl
  | join => rfl
  | claim w =>
    match w with
    | 0 | 1 | 2 | 3 | 4 | 5 | 6 | 7 => rfl
    | w + 8 => rfl
  | finish w =>
    match w with
    | 0 | 1 | 2 | 3 | 4 | 5 | 6 | 7 => rfl
    | w + 8 => rfl

end S3Del

open S3Del in
/-- C1: the claim requires per-item fault isolation — a failing remote
delete is caught inside the worker's loop and recorded, and a worker
stops only on an explicit shutdown signal. The worker loop has
`try/finally` with no `except`, so on a single failing delete the
exception escapes the loop: worker 0's thread is dead in the reachable
state `S1` although no shutdown was ever signalled (the program has no
shutdown signal at all), and no failure outcome is recorded anywhere. -/
theorem delete_failure_kills_worker :
    Reachable failsAll tasks1 8 S1 ∧
    S1.workers.get? 0 = some WStatus.dead ∧ S1.joined = false :=
  ⟨@runActs_sound failsAll acts1 (initState tasks1 8) S1 rfl, rfl, rfl⟩

open S3Del in
/-- C2: the claim says every enqueued task is claimed and acknowledged
exactly once regardless of delete failures. With nine failing objects
against the eight workers, the reachable state `S2` has all workers dead,
task `("bkt", "k9")` still on the queue, unacknowledged, and no event
enabled — the task is claimed zero times and acknowledged zero times,
and `queue.join()` never returns. -/
theorem ninth_task_never_acknowledged :
    Reachable failsAll tasks9 8 S2 ∧ S2.joined = false ∧
    S2.pending = [("bkt", "k9")] ∧
    (("bkt", "k9") ∉ S2.acks.map Prod.fst) ∧
    ∀ a, applyAction failsAll S2 a = none :=
  ⟨@runActs_sound failsAll acts9 (initState tasks9 8) S2 rfl, rfl, rfl, by decide, S2_stuck⟩

open S3Del in
/-- C3: no premature completion — in every reachable state in which
`queue.join()` has returned, enumeration has finished (nothing left to
enqueue) and the multiset of acknowledged tasks equals the multiset of
enqueued tasks, so the barrier never releases early. -/
theorem join_only_after_enumeration_and_acks
    {fails : Task → Bool} {tasks : List Task} {W : Nat} {s : PipeState}
    (hr : Reachable fails tasks W s) (hj : s.joined = true) :
    s.toEnqueue = [] ∧ (s.puts : Multiset Task) = ↑(s.acks.map Prod.fst) := by
  have hinv := reachable_inv hr
  rcases hinv.hj hj with ⟨he, hz⟩
  have hunf := hinv.hunf
  have hpend : s.pending = [] := List.length_eq_zero.mp (by omega)
  have hproc : procTasks s.workers = [] := List.length_eq_zero.mp (by omega)
  refine ⟨he, ?_⟩
  have hm := hinv.hms
  rw [hpend, hproc] at hm
  simpa using hm

open S3Del in
/-- Witness for C3 at a concrete completed one-object run. -/
theorem join_only_after_witness :
    SJ.toEnqueue = [] ∧ (SJ.puts : Multiset S3Del.Task) = ↑(SJ.acks.map Prod.fst) :=
  join_only_after_enumeration_and_acks
    (@runActs_sound failsNone actsJ (initState tasks1 8) SJ rfl) rfl

open S3Del in
/-- C4: accounting conservation — in every reachable state in which the
run has reported completion (join returned), the number of successful
acknowledgments plus the number of failure acknowledgments equals the
number of enqueued tasks. -/
theorem conservation_succeeded_failed_submitted
    {fails : Task → Bool} {tasks : List Task} {W : Nat} {s : PipeState}
    (hr : Reachable fails tasks W s) (hj : s.joined = true) :
    succeededCount s + failedCount s = submittedCount s := by
  have hinv := reachable_inv hr
  rcases hinv.hj hj with ⟨_, hz⟩
  have hunf := hinv.hunf
  have hpend : s.pending = [] := List.length_eq_zero.mp (by omega)
  have hproc : procTasks s.workers = [] := List.length_eq_zero.mp (by omega)
  have hm := hinv.hms
  rw [hpend, hproc] at hm
  have hcard := congrArg Multiset.card hm
  simp [Multiset.coe_card] at hcard
  have hsplit := acks_count_split s.acks
  simp only [succeededCount, failedCount, submittedCount]
  omega

open S3Del in
/-- Witness for C4 at a concrete completed one-object run. -/
theorem conservation_witness :
    succeededCount SJ + failedCount SJ = submittedCount SJ :=
  conservation_succeeded_failed_submitted
    (@runActs_sound failsNone actsJ (initState tasks1 8) SJ rfl) rfl

open S3Del in
/-- C5 counterexample: against the listing paginated 10/10/5, the
enumerator yields the 10 first-page identifiers, not 25 — the code never
passes a `ContinuationToken`. -/
theorem pagination_counterexample :
    handlerEnumerate svc25 = Except.ok keysPage1 ∧
    keysPage1.length = 10 ∧ ¬ keysPage1.length = 25 :=
  ⟨rfl, rfl, by decide⟩

open S3Del in
/-- C5 amended: the enumerator performs a single listing call and yields
exactly the identifiers of the first page; in any completed run over
them, the sequence of enqueued tasks is exactly that first page (so each
yielded identifier is enqueued exactly once). -/
theorem enumerator_first_page_enqueued_once
    {svc : ListingService} {ks : List String}
    (hp : svc.pages.get? 0 = some (Except.ok ks))
    {bucket : String} {fails : Task → Bool} {s : PipeState}
    (hr : Reachable fails (tasksFor bucket ks) 8 s) (hj : s.joined = true) :
    handlerEnumerate svc = Except.ok ks ∧ s.puts = tasksFor bucket ks := by
  constructor
  · have hp' := hp
    rw [List.get?_eq_getElem?] at hp'
    simp [handlerEnumerate, list_objects_v2, hp']
  · have hinv := reachable_inv hr
    have he := (hinv.hj hj).1
    have henum := hinv.henum
    rw [he, List.append_nil] at henum
    exact henum

open S3Del in
/-- Witness for the amended C5 at a completed first-page run. -/
theorem enumerator_first_page_witness :
    handlerEnumerate svc25 = Except.ok keysPage1 ∧ SJ25.puts = tasksFor "b" keysPage1 :=
  @enumerator_first_page_enqueued_once svc25 keysPage1 rfl "b" failsNone SJ25
    (@runActs_sound failsNone actsPage1 (initState (tasksFor "b" keysPage1) 8) SJ25 rfl) rfl

open S3Del in
/-- C6 counterexample: on the 25-identifier, 3-page scenario the handler
returns `None` — not the claimed `{submitted := 25, succeeded := 25,
failed := 0, failures := []}` record. -/
theorem handler_result_counterexample :
    handler ev25 svc25 = Except.ok none ∧
    (Except.ok (some (⟨25, 25, 0, []⟩ : PipelineResult)) :
        Except String (Option PipelineResult)) ≠ Except.ok none :=
  ⟨rfl, by simp⟩

open S3Del in
/-- C6 amended: whenever the single listing call succeeds, `handler`
returns `None`: the run produces no result record and no counts. -/
theorem handler_returns_none
    {ev : S3Event} {svc : ListingService} {ks : List String}
    (hp : svc.pages.get? 0 = some (Except.ok ks)) :
    handler ev svc = Except.ok none := by
  have hp' := hp
  rw [List.get?_eq_getElem?] at hp'
  simp [handler, list_objects_v2, hp']

open S3Del in
/-- Witness for the amended C6. -/
theorem handler_returns_none_witness :
    handler ev25 svc25 = Except.ok none :=
  @handler_returns_none ev25 svc25 keysPage1 rfl

open S3Del in
/-- C7 counterexample: with a listing that fails on the second page, the
run completes normally — no `EnumerationError` is surfaced, because the
second page is never requested; only the first page is enumerated. -/
theorem second_page_failure_unobserved :
    handler ev25 svcFail2 = Except.ok none ∧
    handlerEnumerate svcFail2 = Except.ok keysPage1 :=
  ⟨rfl, rfl⟩

open S3Del in
/-- C7 amended: the pipeline performs exactly one listing call, so a
listing exception surfaces to the caller iff fetching the first page
raises; that exception propagates unhandled before any worker is started
or any item enqueued, and a failure on any later page is never
observed. -/
theorem listing_error_iff_first_page_error
    (ev : S3Event) (svc : ListingService) (e : String) :
    handler ev svc = Except.error e ↔ svc.pages.get? 0 = some (Except.error e) := by
  unfold handler list_objects_v2
  rw [List.get?_eq_getElem?]
  cases h : svc.pages[0]? with
  | none => simp [h]
  | some pg =>
    cases pg with
    | error e' => simp [h]
    | ok ks => simp [h]

open S3Del in
/-- C8 counterexample: the caller asks for a pool of 4 via `poolSize`;
the code runs `for x in range(8)` and starts eight workers regardless. -/
theorem pool_size_ignored :
    evPool4.poolSize = some 4 ∧
    (handlerInitState evPool4 keysPage1).workers.length = 8 ∧ ¬ (8 : Nat) = 4 :=
  ⟨rfl, rfl, by decide⟩

open S3Del in
/-- C8 amended: the worker pool always has exactly eight workers — the
default of eight holds, but no field of the input changes it. -/
theorem pool_always_eight (ev : S3Event) (ks : List String) :
    (handlerInitState ev ks).workers.length = 8 := by
  simp [handlerInitState, initState]

/-- C9: `remove_orphans(vpc_id)` just calls and returns
`find_orphans(vpc_id)`: same return value, same remote calls — all of
them read-only listing calls, never a security-group deletion — and
`main`'s `--delete` branch computes exactly what detection computes. -/
theorem remove_orphans_deletes_nothing (env : SgAudit.Env) (vpcId : String) :
    SgAudit.remove_orphans env vpcId = SgAudit.find_orphans env vpcId ∧
    SgAudit.callsAreReadOnly (SgAudit.remove_orphans env vpcId).2 = true ∧
    SgAudit.mainAction env ⟨some vpcId, true, false⟩ =
      SgAudit.mainAction env ⟨some vpcId, false, true⟩ := by
  refine ⟨rfl, ?_, rfl⟩
  rw [SgAudit.callsAreReadOnly, List.all_eq_true]
  intro c hc
  cases c <;> simp_all [SgAudit.remove_orphans, SgAudit.find_orphans,
    SgAudit.get_security_group_list, SgAudit.pageCalls, SgAudit.efsCalls,
    List.mem_replicate]

/-- C10: once the initial `describe_snapshots` call has succeeded,
`cleanup_snapshots` never propagates an exception: every later listing or
delete failure is swallowed by the `except: pass` and the counts
accumulated up to the failure are returned — the result carries only the
`removed`/`retained` counts, no record of the error. -/
theorem cleanup_snapshots_swallows_failures
    (env : EbsBackup.Env) (volId : String) (retentionDays : Int)
    (h : env.pageFails volId 0 = false) :
    ∃ c, EbsBackup.cleanup_snapshots env volId retentionDays = Except.ok c := by
  refine ⟨EbsBackup.cleanupLoop (env.pageFails volId) (env.deleteFails volId)
    retentionDays (env.snapPages volId) 0 ⟨0, 0⟩, ?_⟩
  simp [EbsBackup.cleanup_snapshots, h]

/-- Witness for C10: in `envEx` the delete of `snap-2` raises mid-page;
the function still returns `Except.ok`, carrying the partial counts
`{removed := 1, retained := 0}` accumulated before the failure. -/
theorem cleanup_snapshots_witness :
    EbsBackup.envEx.pageFails "vol-1" 0 = false ∧
    (∃ c, EbsBackup.cleanup_snapshots EbsBackup.envEx "vol-1" 7 = Except.ok c) ∧
    EbsBackup.cleanup_snapshots EbsBackup.envEx "vol-1" 7 = Except.ok ⟨1, 0⟩ :=
  ⟨rfl, cleanup_snapshots_swallows_failures EbsBackup.envEx "vol-1" 7 rfl, rfl⟩
